import Mathlib

/-!
Verification development for the Birdwatcher capture controller
(`detect_capture.py`). The Python program is shallowly embedded below:
pure helper functions become Lean functions, the armed recording loop and
the outer idle loop become recursive functions over explicit traces of
timed inputs, and filesystem / hardware side effects become an explicit
list of `Effect` values in program order. Times are rationals (seconds),
pixel values are naturals (0–255 scale).
-/

namespace Birdwatcher

/-! ## Configuration constants (detect_capture.py lines 12–20) -/

def VIDEO_DIR : String := "videos"

def MAX_DURATION : ℚ := 45

def NO_PRESENCE_TIMEOUT : ℚ := 6

def TARGET_CLASSES : List String := ["person", "bird"]

def check_interval : ℚ := 10

/-! ## Frames and luma

A frame is a flat list of BGR pixels (spatial layout is irrelevant to the
properties below). `bgr2gray` is OpenCV's fixed-point BGR→GRAY luma
(coefficients 1868/9617/4899, 14-bit descale), used by
`cv2.cvtColor(frame, cv2.COLOR_BGR2GRAY)`. -/

structure Pix where
  b : ℕ
  g : ℕ
  r : ℕ
  deriving Repr, DecidableEq

def Frame : Type := List Pix

instance : DecidableEq Frame := by
  unfold Frame
  infer_instance

def bgr2gray (p : Pix) : ℕ := (p.b * 1868 + p.g * 9617 + p.r * 4899 + 8192) / 16384

def grayOf (f : Frame) : List ℕ := f.map bgr2gray

/-- `np.mean` of the grayscale image, as an exact rational. -/
def meanLuma (f : Frame) : ℚ := ((grayOf f).sum : ℚ) / ((grayOf f).length : ℚ)

/-- `is_night_frame(frame, threshold)` (lines 102–105): mean grayscale
brightness strictly below the threshold. The program always calls it with
the default threshold 40. -/
def is_night_frame (f : Frame) (threshold : ℚ) : Bool := meanLuma f < threshold

/-- `cv2.cvtColor(enhanced, cv2.COLOR_GRAY2BGR)`: replicate the single
channel into all three. -/
def gray2bgr (g : List ℕ) : Frame := g.map (fun v => ⟨v, v, v⟩)

/-- `preprocess_frame(frame)` (lines 108–115). The CLAHE enhancement
(`cv2.createCLAHE(clipLimit=2.0, tileGridSize=(8,8)).apply`) is an opaque
OpenCV routine mapping a grayscale image to a grayscale image; it is a
parameter `clahe` of the embedding. Note the function re-checks the
frame's own brightness (`if is_night_frame(frame)`) before enhancing. -/
def preprocess_frame (clahe : List ℕ → List ℕ) (f : Frame) : Frame :=
  if is_night_frame f 40 then gray2bgr (clahe (grayOf f)) else f

/-- Lines 135–136 / 148–149: the loop applies `preprocess_frame` exactly
when the cached global `is_night_mode` is set, and passes the frame
through untouched otherwise. -/
def idleProcessFrame (clahe : List ℕ → List ℕ) (isNightMode : Bool) (f : Frame) : Frame :=
  if isNightMode then preprocess_frame clahe f else f

/-! ## Detection -/

/-- `recognize_targets(frame)` (lines 62–73), abstracted over the model's
candidate list in its native output order: scan the candidates in order
and return the first whose label is in `TARGET_CLASSES`; `(None, None)`
when none qualifies. -/
def recognize_targets : List (String × ℚ) → Option (String × ℚ)
  | [] => none
  | c :: rest => if c.1 ∈ TARGET_CLASSES then some c else recognize_targets rest

/-! ## Paths -/

/-- Lines 25–27: `daily_video_dir` is computed once, at process startup,
from the date at startup. -/
def daily_video_dir (startupDate : String) : String := VIDEO_DIR ++ "/" ++ startupDate

/-- The working path produced by `start_recording` (lines 46–52):
`os.path.join(daily_video_dir, f"{timestamp}_{target_detect}.h264")`. -/
def recordingPath (startupDate timestamp label : String) : String :=
  daily_video_dir startupDate ++ "/" ++ timestamp ++ "_" ++ label ++ ".h264"

/-- Left-to-right replacement of every (non-overlapping) occurrence of
`.h264` by `.mp4` in a character list: the behaviour of Python's
`str.replace(".h264", ".mp4")` specialised to its fixed arguments. -/
def replH : List Char → List Char
  | '.' :: 'h' :: '2' :: '6' :: '4' :: rest => '.' :: 'm' :: 'p' :: '4' :: replH rest
  | c :: rest => c :: replH rest
  | [] => []

/-- Python's `path.replace(".h264", ".mp4")` (lines 56 and 86). -/
def toMp4 (path : String) : String := String.mk (replH path.data)

/-! ## The armed inner loop (lines 145–158)

One `Tick` records one iteration of `while time.time() - start_time <
MAX_DURATION`: `tCheck` is the value of `time.time()` at the loop
condition, `det` the result of `recognize_targets` on that iteration's
(captured, preprocessed) frame — an input of the trace, since the
detector is an opaque model — and `tAfter` the value of `time.time()`
in the body (line 153 when a match updates `last_presence_time`,
line 154 when the inactivity comparison reads it). -/

structure Tick where
  tCheck : ℚ
  det : Option (String × ℚ)
  tAfter : ℚ
  deriving Repr, DecidableEq

inductive StopKind where
  | maxDuration
  | inactivity
  deriving Repr, DecidableEq

/-- Outcome of the armed loop. `finalDet` is the value of the Python
variables `(label, conf)` when the loop exits — note line 151 rebinds
`label` on every iteration. `lastP` is the final `last_presence_time`,
`stopTime` the time at which the exit decision was taken, and `consumed`
the 0-based index of the tick at which the loop exited. -/
structure RunResult where
  finalDet : Option (String × ℚ)
  lastP : ℚ
  kind : StopKind
  stopTime : ℚ
  consumed : ℕ
  deriving Repr, DecidableEq

def bumpConsumed (r : RunResult) : RunResult :=
  ⟨r.finalDet, r.lastP, r.kind, r.stopTime, r.consumed + 1⟩

/-- The armed loop of lines 145–158. `startTime` is `start_time`
(line 142), `lastP` is `last_presence_time` (line 143, updated at
line 153), `cur` is the current binding of `(label, conf)` — on entry,
the confirming idle detection from line 138. Returns `none` if the trace
is exhausted before the loop decides to stop. -/
def armedLoop (startTime : ℚ) (lastP : ℚ) (cur : Option (String × ℚ)) :
    List Tick → Option RunResult
  | [] => none
  | t :: rest =>
    if t.tCheck - startTime < MAX_DURATION then
      match t.det with
      | some d => Option.map bumpConsumed (armedLoop startTime t.tAfter (some d) rest)
      | none =>
        if t.tAfter - lastP > NO_PRESENCE_TIMEOUT then
          some ⟨none, lastP, StopKind.inactivity, t.tAfter, 0⟩
        else
          Option.map bumpConsumed (armedLoop startTime lastP none rest)
    else
      some ⟨cur, lastP, StopKind.maxDuration, t.tCheck, 0⟩

/-- `last_presence_time` produced by a list of processed ticks, starting
from `init`: the `tAfter` of the last tick carrying a detection, or
`init` if none does. -/
def lastPresenceOf (init : ℚ) : List Tick → ℚ
  | [] => init
  | t :: rest =>
    match t.det with
    | some _ => lastPresenceOf t.tAfter rest
    | none => lastPresenceOf init rest

/-! ## The stop sequence as an effect trace (lines 55–59, 85–92, 160–164) -/

/-- One row of `logs/detections.csv` as written by `log_detection`
(lines 76–82). The `label` column is `Option`al because the Python
variable passed can be `None` (CSV then holds an empty cell). -/
structure LogRow where
  timestamp : String
  label : Option String
  confidence : ℚ
  video_path : String
  deriving Repr, DecidableEq

/-- Observable side effects of the stop path, in program order.
`remux` carries the external tool's success as an environment input;
`wrap_h264_to_mp4` ignores it (the `subprocess.run` result is unused). -/
inductive Effect where
  | encoderStop
  | logAppend (row : LogRow)
  | statusSet (active : Bool)
  | remux (raw mp4 : String) (success : Bool)
  | removeFile (p : String)
  | cooldown
  | pipelineReset
  deriving Repr, DecidableEq

/-- `stop_recording(path, label, confidence, timestamp)` (lines 55–59):
rewrite the extension, stop the encoder, append the log row (with the
`.mp4` path), clear the status flag. -/
def stop_recording (path : String) (label : Option String) (confidence : ℚ)
    (timestamp : String) : List Effect :=
  [Effect.encoderStop,
   Effect.logAppend ⟨timestamp, label, confidence, toMp4 path⟩,
   Effect.statusSet false]

/-- The whole stop path of the main loop (lines 160–164):
`stop_recording(...)`, then `wrap_h264_to_mp4(video_path)` (lines 85–92,
exit status ignored), then the unconditional `os.remove(video_path)`,
then the 2 s cooldown sleep. -/
def stopSequence (videoPath : String) (label : Option String) (confidence : ℚ)
    (timestamp : String) (remuxSuccess : Bool) : List Effect :=
  stop_recording videoPath label confidence timestamp ++
    [Effect.remux videoPath (toMp4 videoPath) remuxSuccess,
     Effect.removeFile videoPath,
     Effect.cooldown]

/-- The single log row appended by a finalized session (the
`Effect.logAppend` inside `stopSequence` via `stop_recording`, line 58):
`label` is the final armed-loop binding of the Python variable `label`,
`confidence` is the variable `confidence` bound at line 138 by the
confirming detection and never rebound (the inner loop binds `conf`). -/
def sessionLoggedRow (startupDate timestamp : String) (initDet : String × ℚ)
    (startTime lastPresence0 : ℚ) (trace : List Tick) : Option LogRow :=
  Option.map
    (fun r =>
      ⟨timestamp, Option.map Prod.fst r.finalDet, initDet.2,
       toMp4 (recordingPath startupDate timestamp initDet.1)⟩)
    (armedLoop startTime lastPresence0 (some initDet) trace)

/-- The stop sequence in the order the specification's §4.5 states it:
stop encoder; remux; delete the raw file; append the DetectionEvent with
the final container path; publish StatusFlag inactive; fully reset the
capture pipeline. Modelled from the spec's words, for comparison with
`stopSequence` (which is translated from the code). -/
def claimedStopSequence (videoPath : String) (label : Option String) (confidence : ℚ)
    (timestamp : String) (remuxSuccess : Bool) : List Effect :=
  [Effect.encoderStop,
   Effect.remux videoPath (toMp4 videoPath) remuxSuccess,
   Effect.removeFile videoPath,
   Effect.logAppend ⟨timestamp, label, confidence, toMp4 videoPath⟩,
   Effect.statusSet false,
   Effect.pipelineReset]

/-! ## The outer idle loop (lines 119–141)

The global illumination state is `(last_check, is_night_mode)`
(lines 19–21). One `OuterInput` is one iteration of the outer `while
True`: `now` is `time.time()` at line 120, `frameCheck` the frame the
refresh branch would sample, `pir` the PIR reading at line 131, and
`idleDet` the detector's result on the trigger frame (opaque model ⇒
trace input). `armedTrace` is the armed-loop input consumed if a session
starts. -/

structure IdleState where
  lastCheck : ℚ
  isNightMode : Bool
  deriving Repr, DecidableEq

structure OuterInput where
  now : ℚ
  frameCheck : Frame
  pir : Bool
  idleDet : Option (String × ℚ)
  armedTrace : List Tick

/-- One iteration of the outer loop, restricted to the illumination
state and the illumination values observed. Returns the updated global
state and, when a session starts (PIR high and `recognize_targets`
matched), the pair of the mode used to preprocess the trigger frame
(line 135) and the list of mode values read by the armed loop, one per
armed tick (line 148). The armed inner loop (lines 145–158) contains no
assignment to `is_night_mode`, and the program is single-threaded, so
every armed-tick read yields the value cached before the session. -/
def outerTick (st : IdleState) (inp : OuterInput) : IdleState × Option (Bool × List Bool) :=
  let st1 : IdleState :=
    if inp.now - st.lastCheck > check_interval then
      ⟨inp.now, is_night_frame inp.frameCheck 40⟩
    else
      st
  let obs : Option (Bool × List Bool) :=
    if inp.pir then
      match inp.idleDet with
      | some _ => some (st1.isNightMode, inp.armedTrace.map (fun _ => st1.isNightMode))
      | none => none
    else
      none
  (st1, obs)

/-! ## Theorems -/

/-- Claim C8: for every candidate collection produced by the model,
`recognize_targets` returns the first candidate, in the model's native
output ordering, whose label is in the target-class allow-list, and
returns no match exactly when no candidate's label is in the
allow-list. -/
theorem C8_first_allow_listed (cands : List (String × ℚ)) :
    (recognize_targets cands = none ↔ ∀ c ∈ cands, c.1 ∉ TARGET_CLASSES) ∧
    (∀ c, recognize_targets cands = some c →
      c.1 ∈ TARGET_CLASSES ∧
      ∃ pre post, cands = pre ++ c :: post ∧ ∀ d ∈ pre, d.1 ∉ TARGET_CLASSES) := by
  induction cands with
  | nil =>
    refine ⟨by simp [recognize_targets], ?_⟩
    intro c hc
    simp [recognize_targets] at hc
  | cons a rest ih =>
    by_cases ha : a.1 ∈ TARGET_CLASSES
    · refine ⟨?_, ?_⟩
      · simp only [recognize_targets, if_pos ha]
        constructor
        · intro hcon
          exact absurd hcon (by simp)
        · intro hall
          exact absurd ha (hall a (by simp))
      · intro c hc
        simp only [recognize_targets, if_pos ha, Option.some.injEq] at hc
        subst hc
        exact ⟨ha, [], rest, rfl, by simp⟩
    · refine ⟨?_, ?_⟩
      · simp only [recognize_targets, if_neg ha]
        rw [ih.1]
        constructor
        · intro hall c hc
          rcases List.mem_cons.mp hc with h1 | h1
          · subst h1; exact ha
          · exact hall c h1
        · intro hall c hc
          exact hall c (List.mem_cons_of_mem _ hc)
      · intro c hc
        simp only [recognize_targets, if_neg ha] at hc
        obtain ⟨h1, pre, post, h2, h3⟩ := ih.2 c hc
        refine ⟨h1, a :: pre, post, by rw [h2]; rfl, ?_⟩
        intro d hd
        rcases List.mem_cons.mp hd with h4 | h4
        · subst h4; exact ha
        · exact h3 d h4

/-- Witness for C8: on candidates `cat 0.9, person 0.3, bird 0.8` in
model order, the detector returns `person 0.3` — the first allow-listed
candidate, not the highest-confidence one (`bird 0.8`). -/
theorem C8_first_allow_listed_witness :
    ("person", (3 : ℚ)/10).1 ∈ TARGET_CLASSES ∧
    ∃ pre post,
      [("cat", (9 : ℚ)/10), ("person", (3 : ℚ)/10), ("bird", (8 : ℚ)/10)] =
        pre ++ ("person", (3 : ℚ)/10) :: post ∧
      ∀ d ∈ pre, d.1 ∉ TARGET_CLASSES :=
  (C8_first_allow_listed
      [("cat", (9 : ℚ)/10), ("person", (3 : ℚ)/10), ("bird", (8 : ℚ)/10)]).2
    ("person", (3 : ℚ)/10) rfl

/-- Claim C10: the illumination classifier reports night exactly when
the mean luma of the frame is strictly less than the threshold 40; a
frame with mean luma exactly 40 classifies as day, one with mean luma 39
classifies as night. (The hypothesis `f ≠ []` restricts to real frames;
`np.mean` of an empty array is NaN.) -/
theorem C10_night_threshold (f : Frame) (_hf : f ≠ []) :
    (is_night_frame f 40 = true ↔ meanLuma f < 40) ∧
    (meanLuma f = 40 → is_night_frame f 40 = false) ∧
    (meanLuma f = 39 → is_night_frame f 40 = true) := by
  refine ⟨by simp [is_night_frame], ?_, ?_⟩
  · intro h40
    simp [is_night_frame, h40]
  · intro h39
    rw [is_night_frame, h39]
    norm_num

/-- Witness for C10: the constant frame of luma 40 is day, the constant
frame of luma 39 is night. -/
theorem C10_night_threshold_witness :
    is_night_frame [Pix.mk 40 40 40] 40 = false ∧
    is_night_frame [Pix.mk 39 39 39] 40 = true :=
  ⟨(C10_night_threshold [Pix.mk 40 40 40] (by simp)).2.1
      (by norm_num [meanLuma, grayOf, bgr2gray]),
   (C10_night_threshold [Pix.mk 39 39 39] (by simp)).2.2
      (by norm_num [meanLuma, grayOf, bgr2gray])⟩

/-- Claim C4, counterexample: in night mode, a frame whose own mean luma
is not below the night threshold is returned unchanged, not enhanced.
The bright pure-red one-pixel frame (mean luma 76) passes through with
its colour channels intact, whereas the claimed result — luma
conversion, enhancement, conversion back to 3 channels — is necessarily
channel-equal grey (here shown with the enhancement instantiated to the
identity on grayscale images; any grayscale-to-grayscale enhancement
yields a channel-equal frame, which the red frame is not). -/
theorem C4_bright_night_frame_passthrough :
    idleProcessFrame (fun g => g) true [Pix.mk 0 0 255] = [Pix.mk 0 0 255] ∧
    gray2bgr ((fun g => g) (grayOf [Pix.mk 0 0 255])) ≠ [Pix.mk 0 0 255] := by
  constructor
  · have hb : is_night_frame [Pix.mk 0 0 255] 40 = false := by
      norm_num [is_night_frame, meanLuma, grayOf, bgr2gray]
    simp [idleProcessFrame, preprocess_frame, hb]
  · decide

/-- Claim C4, amended: in day mode the frame passes through unchanged;
in night mode the preprocessor re-checks the frame's own mean luma and
only a frame with mean luma strictly below 40 is converted to luma,
enhanced (tile grid 8×8, clip limit 2.0 — the opaque `clahe` parameter)
and converted back to 3 channels; a night-mode frame with mean luma ≥ 40
is returned unchanged. The result is a pure function of frame and mode,
hence deterministic. -/
theorem C4_preprocess_amended (clahe : List ℕ → List ℕ) (isNightMode : Bool) (f : Frame) :
    (isNightMode = false → idleProcessFrame clahe isNightMode f = f) ∧
    (isNightMode = true → is_night_frame f 40 = false →
      idleProcessFrame clahe isNightMode f = f) ∧
    (isNightMode = true → is_night_frame f 40 = true →
      idleProcessFrame clahe isNightMode f = gray2bgr (clahe (grayOf f))) := by
  refine ⟨?_, ?_, ?_⟩
  · intro h1
    subst h1
    simp [idleProcessFrame]
  · intro h1 h2
    subst h1
    simp [idleProcessFrame, preprocess_frame, h2]
  · intro h1 h2
    subst h1
    simp [idleProcessFrame, preprocess_frame, h2]

/-- Witness for the amended C4: a dark one-pixel frame (luma 20) in
night mode is enhanced, via the amended theorem with the identity
enhancement. -/
theorem C4_preprocess_amended_witness :
    idleProcessFrame (fun g => g) true [Pix.mk 20 20 20] =
      gray2bgr ((fun g => g) (grayOf [Pix.mk 20 20 20])) :=
  (C4_preprocess_amended (fun g => g) true [Pix.mk 20 20 20]).2.2 rfl
    (by norm_num [is_night_frame, meanLuma, grayOf, bgr2gray])

/-- Claim C9, counterexample: the date directory is the one computed at
process startup, not the day the session starts. A session whose
timestamp is on 2026-10-12, in a process started on 2026-10-11, gets a
working path under `videos/2026-10-11/`, not under the claimed
`videos/2026-10-12/`. -/
theorem C9_session_day_refuted :
    recordingPath "2026-10-11" "2026-10-12_00-05-00" "bird" =
      "videos/2026-10-11/2026-10-12_00-05-00_bird.h264" ∧
    recordingPath "2026-10-11" "2026-10-12_00-05-00" "bird" ≠
      "videos/" ++ String.take "2026-10-12_00-05-00" 10 ++
        "/2026-10-12_00-05-00_bird.h264" := by
  constructor
  · rfl
  · decide

/-- Claim C9, amended: the working file is created under
`videos/<startupDate>/` where `startupDate` is the date computed once at
process startup (`daily_video_dir`, lines 24–27); this coincides with
the day the session starts exactly when the session's timestamp carries
the startup date, i.e. for sessions begun on the same day the process
started. -/
theorem C9_startup_date_dir (startupDate timestamp label : String) :
    recordingPath startupDate timestamp label =
      "videos/" ++ startupDate ++ ("/" ++ timestamp ++ "_" ++ label ++ ".h264") ∧
    (startupDate = String.take timestamp 10 →
      recordingPath startupDate timestamp label =
        "videos/" ++ String.take timestamp 10 ++
          ("/" ++ timestamp ++ "_" ++ label ++ ".h264")) := by
  have h1 : recordingPath startupDate timestamp label =
      "videos/" ++ startupDate ++ ("/" ++ timestamp ++ "_" ++ label ++ ".h264") := by
    show "videos" ++ "/" ++ startupDate ++ "/" ++ timestamp ++ "_" ++ label ++ ".h264" =
      "videos/" ++ startupDate ++ ("/" ++ timestamp ++ "_" ++ label ++ ".h264")
    simp only [String.append_assoc]
    rfl
  refine ⟨h1, ?_⟩
  intro hsame
  rw [h1, hsame]

/-- Witness for the amended C9: a same-day session lands in the
directory named for its own (= the startup) date. -/
theorem C9_startup_date_dir_witness :
    recordingPath "2026-10-12" "2026-10-12_10-00-00" "bird" =
      "videos/" ++ String.take "2026-10-12_10-00-00" 10 ++
        ("/" ++ "2026-10-12_10-00-00" ++ "_" ++ "bird" ++ ".h264") :=
  (C9_startup_date_dir "2026-10-12" "2026-10-12_10-00-00" "bird").2 (by decide)

/-- Claim C1: evaluation of the code at the failing input. A session is
confirmed by `("bird", 0.82)` at time 0; the armed loop then sees seven
tick s (times 1 … 7) with no detection, so the session stops by the
inactivity timeout at time 7. The single appended row carries the
confirmed confidence 0.82 but label `None` — not the confirmed label
`"bird"` — because line 151 rebinds the Python variable `label` on every
armed tick and the final binding at an inactivity stop is always `None`
(the inner loop binds the confidence to `conf`, so `confidence` alone
survives). -/
theorem C1_inactivity_stop_logs_none_label :
    sessionLoggedRow "2026-10-12" "2026-10-12_10-00-00" ("bird", 41/50) 0 0
        [⟨1, none, 1⟩, ⟨2, none, 2⟩, ⟨3, none, 3⟩, ⟨4, none, 4⟩,
         ⟨5, none, 5⟩, ⟨6, none, 6⟩, ⟨7, none, 7⟩] =
      some ⟨"2026-10-12_10-00-00", none, 41/50,
        "videos/2026-10-12/2026-10-12_10-00-00_bird.mp4"⟩ ∧
    (none : Option String) ≠ some "bird" := by
  constructor
  · have hrun : armedLoop 0 0 (some ("bird", 41/50))
        [⟨1, none, 1⟩, ⟨2, none, 2⟩, ⟨3, none, 3⟩, ⟨4, none, 4⟩,
         ⟨5, none, 5⟩, ⟨6, none, 6⟩, ⟨7, none, 7⟩] =
        some ⟨none, 0, StopKind.inactivity, 7, 6⟩ := by
      norm_num [armedLoop, MAX_DURATION, NO_PRESENCE_TIMEOUT, bumpConsumed]
    simp only [sessionLoggedRow, hrun]
    rfl
  · simp

/-- Claim C2: evaluation of the code at the failing input (remux exit
status reported as failure). The stop path still appends exactly one
DetectionEvent — carrying the `.mp4` path the remux failed to produce —
and still unconditionally removes the raw working file:
`wrap_h264_to_mp4` discards the `subprocess.run` result (lines 85–92)
and line 162 deletes the raw file with no success check. -/
theorem C2_failed_remux_still_logs_and_deletes :
    stopSequence "videos/2026-10-12/t_bird.h264" (some "bird") (41/50)
        "2026-10-12_10-00-00" false =
      [Effect.encoderStop,
       Effect.logAppend ⟨"2026-10-12_10-00-00", some "bird", 41/50,
         "videos/2026-10-12/t_bird.mp4"⟩,
       Effect.statusSet false,
       Effect.remux "videos/2026-10-12/t_bird.h264" "videos/2026-10-12/t_bird.mp4" false,
       Effect.removeFile "videos/2026-10-12/t_bird.h264",
       Effect.cooldown] ∧
    List.countP
        (fun e => match e with | Effect.logAppend _ => true | _ => false)
        (stopSequence "videos/2026-10-12/t_bird.h264" (some "bird") (41/50)
          "2026-10-12_10-00-00" false) = 1 ∧
    Effect.removeFile "videos/2026-10-12/t_bird.h264" ∈
      stopSequence "videos/2026-10-12/t_bird.h264" (some "bird") (41/50)
        "2026-10-12_10-00-00" false := by
  refine ⟨rfl, rfl, ?_⟩
  simp [stopSequence, stop_recording]

/-- Claim C3, counterexample: the effect sequence the code performs on
stop differs from the order the claim states (encoder stop; remux;
delete raw; log; status inactive; pipeline reset) — shown at a concrete
session. In the code the log append and the status write precede the
remux and the deletion, and no pipeline reset exists. -/
theorem C3_claimed_order_refuted :
    stopSequence "videos/2026-10-12/t_bird.h264" (some "bird") 1
        "2026-10-12_10-00-00" true ≠
      claimedStopSequence "videos/2026-10-12/t_bird.h264" (some "bird") 1
        "2026-10-12_10-00-00" true := by
  intro h
  have h1 := List.getElem_of_eq h (by simp [stopSequence, stop_recording] : (1 : ℕ) <
    (stopSequence "videos/2026-10-12/t_bird.h264" (some "bird") 1
      "2026-10-12_10-00-00" true).length)
  simp [stopSequence, stop_recording, claimedStopSequence] at h1

/-- Claim C3, amended: for every session the stop path performs, in this
order: stop the encoder; append the single DetectionEvent, whose clip
path is already the final `.mp4` container path; publish StatusFlag
inactive; invoke the remux (its exit status unchecked); delete the raw
working file unconditionally; sleep the 2 s cooldown. No capture-pipeline
reset (stop, reconfigure, restart) occurs anywhere in the sequence. -/
theorem C3_stop_sequence_actual_order (videoPath : String) (label : Option String)
    (confidence : ℚ) (timestamp : String) (remuxSuccess : Bool) :
    stopSequence videoPath label confidence timestamp remuxSuccess =
      [Effect.encoderStop,
       Effect.logAppend ⟨timestamp, label, confidence, toMp4 videoPath⟩,
       Effect.statusSet false,
       Effect.remux videoPath (toMp4 videoPath) remuxSuccess,
       Effect.removeFile videoPath,
       Effect.cooldown] ∧
    Effect.pipelineReset ∉ stopSequence videoPath label confidence timestamp remuxSuccess := by
  refine ⟨rfl, ?_⟩
  simp [stopSequence, stop_recording]

/-- Claim C5, counterexample: a session started at time 0 whose armed
ticks all carry target detections, with checks every 5 s, exits by the
duration cap at the first check at or after 45 s — here 45.5 s — which
is strictly after `T + MAX_DURATION`. So the session does not always
stop at or before `T + 45`. -/
theorem C5_stop_after_cap :
    armedLoop 0 0 (some ("bird", 41/50))
        [⟨0, some ("bird", 1/2), 0⟩, ⟨5, some ("bird", 1/2), 5⟩,
         ⟨10, some ("bird", 1/2), 10⟩, ⟨15, some ("bird", 1/2), 15⟩,
         ⟨20, some ("bird", 1/2), 20⟩, ⟨25, some ("bird", 1/2), 25⟩,
         ⟨30, some ("bird", 1/2), 30⟩, ⟨35, some ("bird", 1/2), 35⟩,
         ⟨40, some ("bird", 1/2), 40⟩, ⟨91/2, some ("bird", 1/2), 91/2⟩] =
      some ⟨some ("bird", 1/2), 40, StopKind.maxDuration, 91/2, 9⟩ ∧
    ¬ ((91 : ℚ)/2 ≤ 0 + MAX_DURATION) := by
  constructor
  · norm_num [armedLoop, MAX_DURATION, NO_PRESENCE_TIMEOUT, bumpConsumed]
  · norm_num [MAX_DURATION]

/-- Claim C5, amended: the armed loop never runs a tick's body once
`MAX_DURATION` (45 s) has elapsed since the session's start — every tick
strictly before the exit tick has `tCheck - startTime < MAX_DURATION` —
and the loop exits no later than the first tick whose check time is at
or past the cap; a duration-cap exit happens exactly at such a check, so
the stop decision is taken at the first armed check at or after
`T + MAX_DURATION` (or earlier, by inactivity). -/
theorem C5_cap_amended (startTime lastP : ℚ) (cur : Option (String × ℚ))
    (trace : List Tick) (r : RunResult)
    (h : armedLoop startTime lastP cur trace = some r) :
    r.consumed < trace.length ∧
    (∀ i : ℕ, ∀ hi : i < trace.length, i < r.consumed →
      (trace.get ⟨i, hi⟩).tCheck - startTime < MAX_DURATION) ∧
    (∀ i : ℕ, ∀ hi : i < trace.length,
      MAX_DURATION ≤ (trace.get ⟨i, hi⟩).tCheck - startTime → r.consumed ≤ i) ∧
    (r.kind = StopKind.maxDuration → MAX_DURATION ≤ r.stopTime - startTime ∧
      ∀ hc : r.consumed < trace.length,
        r.stopTime = (trace.get ⟨r.consumed, hc⟩).tCheck) := by
  induction trace generalizing lastP cur r with
  | nil => simp [armedLoop] at h
  | cons t rest ih =>
    rw [armedLoop] at h
    by_cases hcond : t.tCheck - startTime < MAX_DURATION
    · rw [if_pos hcond] at h
      cases hdet : t.det with
      | some d =>
        simp only [hdet] at h
        cases hrec : armedLoop startTime t.tAfter (some d) rest with
        | none => rw [hrec] at h; simp at h
        | some r' =>
          rw [hrec] at h
          simp only [Option.map_some'] at h
          obtain ⟨h1, h2, h3, h4⟩ := ih t.tAfter (some d) r' hrec
          cases h
          refine ⟨by simpa [bumpConsumed] using Nat.succ_lt_succ h1, ?_, ?_, ?_⟩
          · intro i hi hlt
            match i with
            | 0 => exact hcond
            | j + 1 =>
              exact h2 j (by simpa using hi) (by simpa [bumpConsumed] using hlt)
          · intro i hi hcap
            match i with
            | 0 => exact absurd hcap (not_le.mpr hcond)
            | j + 1 =>
              have := h3 j (by simpa using hi) hcap
              simpa [bumpConsumed] using Nat.succ_le_succ this
          · intro hk
            obtain ⟨hb, hs⟩ := h4 hk
            refine ⟨hb, ?_⟩
            intro hc
            exact hs (by simpa [bumpConsumed] using hc)
      | none =>
        simp only [hdet] at h
        by_cases htime : t.tAfter - lastP > NO_PRESENCE_TIMEOUT
        · rw [if_pos htime] at h
          cases h
          refine ⟨by simp, ?_, ?_, ?_⟩
          · intro i hi hlt
            exact absurd hlt (by simp)
          · intro i hi hcap
            exact Nat.zero_le i
          · intro hk
            exact absurd hk (by simp)
        · rw [if_neg htime] at h
          cases hrec : armedLoop startTime lastP none rest with
          | none => rw [hrec] at h; simp at h
          | some r' =>
            rw [hrec] at h
            simp only [Option.map_some'] at h
            obtain ⟨h1, h2, h3, h4⟩ := ih lastP none r' hrec
            cases h
            refine ⟨by simpa [bumpConsumed] using Nat.succ_lt_succ h1, ?_, ?_, ?_⟩
            · intro i hi hlt
              match i with
              | 0 => exact hcond
              | j + 1 =>
                exact h2 j (by simpa using hi) (by simpa [bumpConsumed] using hlt)
            · intro i hi hcap
              match i with
              | 0 => exact absurd hcap (not_le.mpr hcond)
              | j + 1 =>
                have := h3 j (by simpa using hi) hcap
                simpa [bumpConsumed] using Nat.succ_le_succ this
            · intro hk
              obtain ⟨hb, hs⟩ := h4 hk
              refine ⟨hb, ?_⟩
              intro hc
              exact hs (by simpa [bumpConsumed] using hc)
    · rw [if_neg hcond] at h
      cases h
      refine ⟨by simp, ?_, ?_, ?_⟩
      · intro i hi hlt
        exact absurd hlt (by simp)
      · intro i hi hcap
        exact Nat.zero_le i
      · intro _
        exact ⟨not_lt.mp hcond, fun hc => rfl⟩

/-- Witness for the amended C5: the run of `C5_stop_after_cap` exits at
tick index 9, every earlier check is below the cap, and the cap exit
time 45.5 is at least `MAX_DURATION` past the start. -/
theorem C5_cap_amended_witness :
    ((9 : ℕ) < 10) ∧
    (∀ i : ℕ, ∀ hi : i <
        ([⟨0, some ("bird", 1/2), 0⟩, ⟨5, some ("bird", 1/2), 5⟩,
          ⟨10, some ("bird", 1/2), 10⟩, ⟨15, some ("bird", 1/2), 15⟩,
          ⟨20, some ("bird", 1/2), 20⟩, ⟨25, some ("bird", 1/2), 25⟩,
          ⟨30, some ("bird", 1/2), 30⟩, ⟨35, some ("bird", 1/2), 35⟩,
          ⟨40, some ("bird", 1/2), 40⟩,
          ⟨91/2, some ("bird", 1/2), 91/2⟩] : List Tick).length,
      i < 9 →
      (([⟨0, some ("bird", 1/2), 0⟩, ⟨5, some ("bird", 1/2), 5⟩,
          ⟨10, some ("bird", 1/2), 10⟩, ⟨15, some ("bird", 1/2), 15⟩,
          ⟨20, some ("bird", 1/2), 20⟩, ⟨25, some ("bird", 1/2), 25⟩,
          ⟨30, some ("bird", 1/2), 30⟩, ⟨35, some ("bird", 1/2), 35⟩,
          ⟨40, some ("bird", 1/2), 40⟩,
          ⟨91/2, some ("bird", 1/2), 91/2⟩] : List Tick).get ⟨i, hi⟩).tCheck - 0 <
        MAX_DURATION) ∧
    (MAX_DURATION ≤ (91 : ℚ)/2 - 0) := by
  have h := C5_cap_amended 0 0 (some ("bird", 41/50))
      [⟨0, some ("bird", 1/2), 0⟩, ⟨5, some ("bird", 1/2), 5⟩,
       ⟨10, some ("bird", 1/2), 10⟩, ⟨15, some ("bird", 1/2), 15⟩,
       ⟨20, some ("bird", 1/2), 20⟩, ⟨25, some ("bird", 1/2), 25⟩,
       ⟨30, some ("bird", 1/2), 30⟩, ⟨35, some ("bird", 1/2), 35⟩,
       ⟨40, some ("bird", 1/2), 40⟩, ⟨91/2, some ("bird", 1/2), 91/2⟩]
      ⟨some ("bird", 1/2), 40, StopKind.maxDuration, 91/2, 9⟩
      (by norm_num [armedLoop, MAX_DURATION, NO_PRESENCE_TIMEOUT, bumpConsumed])
  exact ⟨h.1, h.2.1, (h.2.2.2 rfl).1⟩

/-- Claim C6: an inactivity stop happens only strictly more than
`NO_PRESENCE_TIMEOUT` (6 s) after the final `last_presence_time`, and
that value is exactly the `tAfter` of the most recent armed tick
carrying a confirmed detection — or the session-start value when no
armed tick matched — i.e. inactivity is measured from the last confirmed
detection, not from session start, and the loop never exits by
inactivity before the strict 6 s bound. -/
theorem C6_inactivity_cutoff (startTime lastP0 : ℚ) (cur : Option (String × ℚ))
    (trace : List Tick) (r : RunResult)
    (h : armedLoop startTime lastP0 cur trace = some r)
    (hk : r.kind = StopKind.inactivity) :
    NO_PRESENCE_TIMEOUT < r.stopTime - r.lastP ∧
    r.lastP = lastPresenceOf lastP0 (trace.take r.consumed) := by
  induction trace generalizing lastP0 cur r with
  | nil => simp [armedLoop] at h
  | cons t rest ih =>
    rw [armedLoop] at h
    by_cases hcond : t.tCheck - startTime < MAX_DURATION
    · rw [if_pos hcond] at h
      cases hdet : t.det with
      | some d =>
        simp only [hdet] at h
        cases hrec : armedLoop startTime t.tAfter (some d) rest with
        | none => rw [hrec] at h; simp at h
        | some r' =>
          rw [hrec] at h
          simp only [Option.map_some'] at h
          cases h
          obtain ⟨h1, h2⟩ := ih t.tAfter (some d) r' hrec hk
          refine ⟨h1, ?_⟩
          simpa [bumpConsumed, lastPresenceOf, hdet] using h2
      | none =>
        simp only [hdet] at h
        by_cases htime : t.tAfter - lastP0 > NO_PRESENCE_TIMEOUT
        · rw [if_pos htime] at h
          cases h
          exact ⟨htime, by simp [lastPresenceOf]⟩
        · rw [if_neg htime] at h
          cases hrec : armedLoop startTime lastP0 none rest with
          | none => rw [hrec] at h; simp at h
          | some r' =>
            rw [hrec] at h
            simp only [Option.map_some'] at h
            cases h
            obtain ⟨h1, h2⟩ := ih lastP0 none r' hrec hk
            refine ⟨h1, ?_⟩
            simpa [bumpConsumed, lastPresenceOf, hdet] using h2
    · rw [if_neg hcond] at h
      cases h
      exact absurd hk (by simp)

/-- Witness for C6: the session confirmed at time 0 sees a detection at
time 1, nothing at time 2, nothing at time 9; the inactivity stop fires
at 9, which is 8 s (> 6 s) after the last confirmed detection at 1 —
not measured from the session start 0. -/
theorem C6_inactivity_cutoff_witness :
    NO_PRESENCE_TIMEOUT < (9 : ℚ) - 1 ∧
    (1 : ℚ) = lastPresenceOf 0
      (List.take 2 [⟨1, some ("bird", 1/2), 1⟩, ⟨2, none, 2⟩, ⟨9, none, 9⟩]) :=
  C6_inactivity_cutoff 0 0 (some ("bird", 41/50))
    [⟨1, some ("bird", 1/2), 1⟩, ⟨2, none, 2⟩, ⟨9, none, 9⟩]
    ⟨none, 1, StopKind.inactivity, 9, 2⟩
    (by norm_num [armedLoop, MAX_DURATION, NO_PRESENCE_TIMEOUT, bumpConsumed])
    rfl

/-- Claim C7: the illumination refresh (lines 120–129) is the only
writer of the cached mode: (1) an outer tick whose elapsed time since
`last_check` is not strictly greater than the 10 s refresh interval
leaves the illumination state — mode and `last_check` — untouched;
(2) the cached mode changes only at a refresh whose interval has
elapsed; (3) every frame of an armed session is preprocessed with the
single mode value cached when the session triggered (the armed loop,
lines 145–158, contains no write to `is_night_mode`); (4) two triggers
inside one refresh window — neither preceded by an elapsed refresh —
observe the identical cached mode, the one in force before either
trigger. -/
theorem C7_illumination_stability (st : IdleState) (inp inp2 : OuterInput) :
    (¬ (inp.now - st.lastCheck > check_interval) → (outerTick st inp).1 = st) ∧
    ((outerTick st inp).1.isNightMode ≠ st.isNightMode →
      inp.now - st.lastCheck > check_interval) ∧
    (∀ m ms, (outerTick st inp).2 = some (m, ms) → ∀ x ∈ ms, x = m) ∧
    (¬ (inp.now - st.lastCheck > check_interval) →
      ¬ (inp2.now - (outerTick st inp).1.lastCheck > check_interval) →
      ∀ m ms m2 ms2, (outerTick st inp).2 = some (m, ms) →
        (outerTick (outerTick st inp).1 inp2).2 = some (m2, ms2) →
        m = st.isNightMode ∧ m2 = st.isNightMode) := by
  by_cases hc : inp.now - st.lastCheck > check_interval
  · refine ⟨fun hn => absurd hc hn, fun _ => hc, ?_, fun hn => absurd hc hn⟩
    intro m ms hobs x hx
    simp only [outerTick, if_pos hc] at hobs
    by_cases hp : inp.pir
    · rw [if_pos hp] at hobs
      cases hdet : inp.idleDet with
      | some d =>
        simp only [hdet, Option.some.injEq, Prod.mk.injEq] at hobs
        obtain ⟨hm, hms⟩ := hobs
        subst hm
        subst hms
        obtain ⟨_, _, hx2⟩ := List.mem_map.mp hx
        exact hx2.symm
      | none => simp [hdet] at hobs
    · rw [if_neg hp] at hobs
      simp at hobs
  · have hst : (outerTick st inp).1 = st := by
      simp [outerTick, hc]
    refine ⟨fun _ => hst, ?_, ?_, ?_⟩
    · intro hne
      exact absurd (by rw [hst]) hne
    · intro m ms hobs x hx
      simp only [outerTick, if_neg hc] at hobs
      by_cases hp : inp.pir
      · rw [if_pos hp] at hobs
        cases hdet : inp.idleDet with
        | some d =>
          simp only [hdet, Option.some.injEq, Prod.mk.injEq] at hobs
          obtain ⟨hm, hms⟩ := hobs
          subst hm
          subst hms
          obtain ⟨_, _, hx2⟩ := List.mem_map.mp hx
          exact hx2.symm
        | none => simp [hdet] at hobs
      · rw [if_neg hp] at hobs
        simp at hobs
    · intro _ hc2 m ms m2 ms2 hobs hobs2
      rw [hst] at hc2 hobs2
      constructor
      · simp only [outerTick, if_neg hc] at hobs
        by_cases hp : inp.pir
        · rw [if_pos hp] at hobs
          cases hdet : inp.idleDet with
          | some d => simp only [hdet, Option.some.injEq, Prod.mk.injEq] at hobs; exact hobs.1.symm
          | none => simp [hdet] at hobs
        · rw [if_neg hp] at hobs
          simp at hobs
      · simp only [outerTick, if_neg hc2] at hobs2
        by_cases hp : inp2.pir
        · rw [if_pos hp] at hobs2
          cases hdet : inp2.idleDet with
          | some d => simp only [hdet, Option.some.injEq, Prod.mk.injEq] at hobs2; exact hobs2.1.symm
          | none => simp [hdet] at hobs2
        · rw [if_neg hp] at hobs2
          simp at hobs2

/-- Witness for C7 (Scenario D): starting from mode `day` cached at
`last_check = 0`, two sensor triggers at times 3 and 6 — 3 s apart, both
inside the 10 s refresh window — each confirm a detection and both
observe the identical cached day mode, and a two-tick armed session at
the first trigger reads that same mode on every armed tick. -/
theorem C7_illumination_stability_witness :
    (false = (IdleState.mk 0 false).isNightMode ∧
      false = (IdleState.mk 0 false).isNightMode) ∧
    (∀ x ∈ [false, false], x = false) := by
  have h := C7_illumination_stability ⟨0, false⟩
      ⟨3, [], true, some ("bird", 41/50), [⟨4, none, 4⟩, ⟨5, none, 5⟩]⟩
      ⟨6, [], true, some ("person", 1/2), []⟩
  have hobs : (outerTick ⟨0, false⟩
      ⟨3, [], true, some ("bird", 41/50), [⟨4, none, 4⟩, ⟨5, none, 5⟩]⟩).2 =
      some (false, [false, false]) := by
    norm_num [outerTick, check_interval]
  have hst : (outerTick ⟨0, false⟩
      ⟨3, [], true, some ("bird", 41/50), [⟨4, none, 4⟩, ⟨5, none, 5⟩]⟩).1 =
      ⟨0, false⟩ := by
    norm_num [outerTick, check_interval]
  have hobs2 : (outerTick (outerTick ⟨0, false⟩
      ⟨3, [], true, some ("bird", 41/50), [⟨4, none, 4⟩, ⟨5, none, 5⟩]⟩).1
      ⟨6, [], true, some ("person", 1/2), []⟩).2 = some (false, []) := by
    rw [hst]
    norm_num [outerTick, check_interval]
  refine ⟨?_, ?_⟩
  · exact h.2.2.2 (by norm_num [check_interval]) (by rw [hst]; norm_num [check_interval])
      false [false, false] false [] hobs hobs2
  · exact h.2.2.1 false [false, false] hobs

end Birdwatcher
